import Mathlib

/-!
A shallow embedding of the `daily-metric-logger` program (`src/main.rs`)
and proofs about it.

Modelling conventions:
* A chrono `NaiveDate` is represented by its day number relative to
  1970-01-01 (an `Int`); `NaiveDate` ordering coincides with `Int` ordering.
* The CSV reader's record stream (`rdr.records()`) is modelled as a
  `List RecordResult`: each item is either a malformed record
  (`csv::Error`, the `Err` arm of the loop) or a parsed record, a list of
  cell strings.  The data file is `Option (List RecordResult)`, `none`
  meaning the file does not exist.
* `chrono::DateTime::parse_from_rfc3339` followed by
  `.with_timezone(&Utc).date_naive()` is modelled by an executable RFC3339
  parser returning the UTC day number.  Leap seconds (second 60) fall in
  the minute they extend, which never changes the date.
* Rust `f32` values obtained by parsing user input are modelled exactly as
  decimals (`F32`), including the infinities and NaN that `f32::from_str`
  accepts; binary rounding of decimals with many significant digits is not
  modelled (it is irrelevant to the properties proved here).
* Interactive prompts (`dialoguer`) are modelled by the list of terminal
  events of one prompt loop: each event is a cancellation or an entered
  text; an invalid text causes a reprompt, i.e. the loop moves to the next
  event.  An exhausted event list models a session that never completes and
  yields no outcome (`none` in the `M` monad below).
-/

/-! ## Characters and strings -/

/-- ASCII lower-casing of one character, as in Rust `u8::to_ascii_lowercase`. -/
def asciiLower (c : Char) : Char :=
  if 'A' ≤ c ∧ c ≤ 'Z' then Char.ofNat (c.toNat + 32) else c

/-- Rust `str::eq_ignore_ascii_case`: equality after ASCII lower-casing. -/
def eqIgnoreAsciiCase (a b : String) : Bool :=
  a.toList.map asciiLower == b.toList.map asciiLower

/-- Whitespace as trimmed by Rust `str::trim` (restricted to the ASCII
whitespace characters that can occur in the strings considered here). -/
def wsChar (c : Char) : Bool := c = ' ' ∨ c = '\t' ∨ c = '\n' ∨ c = '\r'

/-- Drop leading and trailing whitespace from a character list. -/
def trimChars (l : List Char) : List Char :=
  ((l.dropWhile wsChar).reverse.dropWhile wsChar).reverse

/-- Rust `str::trim`. -/
def trimStr (s : String) : String := ⟨trimChars s.toList⟩

/-- `'0' ≤ c ≤ '9'`. -/
def isDigitCh (c : Char) : Bool := '0' ≤ c ∧ c ≤ '9'

/-- Numeric value of a digit character. -/
def digitVal (c : Char) : Nat := c.toNat - 48

/-- The natural number denoted by a digit string (most significant first). -/
def natOfDigits (l : List Char) : Nat := l.foldl (fun a c => a * 10 + digitVal c) 0

/-! ## Dates: chrono `NaiveDate` as a day number -/

/-- Read exactly `n` digits from the front of `l`. -/
def takeNum (l : List Char) (n : Nat) : Option (Nat × List Char) :=
  let pre := l.take n
  if pre.length = n ∧ pre.all isDigitCh then some (natOfDigits pre, l.drop n) else none

/-- Expect the character `c` at the front of `l`. -/
def expectCh (l : List Char) (c : Char) : Option (List Char) :=
  match l with
  | x :: rest => if x = c then some rest else none
  | [] => none

/-- Proleptic-Gregorian leap year, as in chrono. -/
def isLeapYear (y : Int) : Bool := (y % 4 = 0 ∧ y % 100 ≠ 0) ∨ y % 400 = 0

/-- Number of days in month `m` of year `y`. -/
def daysInMonth (y : Int) (m : Nat) : Nat :=
  if m = 2 then (if isLeapYear y then 29 else 28)
  else if m = 4 ∨ m = 6 ∨ m = 9 ∨ m = 11 then 30 else 31

/-- Day number of the civil date `y-m-d` relative to 1970-01-01
(the standard era-based civil-calendar computation, as used by chrono). -/
def daysFromCivil (y : Int) (m d : Nat) : Int :=
  let y2 : Int := if m ≤ 2 then y - 1 else y
  let era : Int := Int.fdiv y2 400
  let yoe : Int := y2 - era * 400
  let mp : Int := (Int.ofNat m + 9) % 12
  let doy : Int := (153 * mp + 2) / 5 + (Int.ofNat d - 1)
  let doe : Int := yoe * 365 + yoe / 4 - yoe / 100 + doy
  era * 146097 + doe - 719468

/-- Optional fractional-second part: `'.'` followed by at least one digit. -/
def skipFrac : List Char → Option (List Char)
  | '.' :: rest =>
      if rest.takeWhile isDigitCh = [] then none else some (rest.dropWhile isDigitCh)
  | l => some l

/-- Numeric timezone offset `hh:mm` (with the sign already read),
returned in seconds. -/
def parseOffMag (l : List Char) (neg : Bool) : Option (Int × List Char) := do
  let (oh, l) ← takeNum l 2
  let l ← expectCh l ':'
  let (om, l) ← takeNum l 2
  if oh ≤ 23 ∧ om ≤ 59 then
    some (if neg then -(oh * 3600 + om * 60 : Int) else (oh * 3600 + om * 60 : Int), l)
  else none

/-- Timezone offset: `Z`, `z`, or `±hh:mm`, in seconds. -/
def parseOffset : List Char → Option (Int × List Char)
  | 'Z' :: rest => some (0, rest)
  | 'z' :: rest => some (0, rest)
  | '+' :: rest => parseOffMag rest false
  | '-' :: rest => parseOffMag rest true
  | _ => none

/-- Models `DateTime::parse_from_rfc3339(s).map(|dt| dt.with_timezone(&Utc))`
followed by `.date_naive()`: parse an RFC3339 date-time and return the day
number of its UTC calendar date, or `none` when `s` is not a valid RFC3339
date-time. -/
def parse_from_rfc3339_date (s : String) : Option Int := do
  let (y, l) ← takeNum s.toList 4
  let l ← expectCh l '-'
  let (mo, l) ← takeNum l 2
  let l ← expectCh l '-'
  let (d, l) ← takeNum l 2
  let l ← (match l with
           | c :: rest => if c = 'T' ∨ c = 't' ∨ c = ' ' then some rest else none
           | [] => none)
  let (h, l) ← takeNum l 2
  let l ← expectCh l ':'
  let (mi, l) ← takeNum l 2
  let l ← expectCh l ':'
  let (se, l) ← takeNum l 2
  let l ← skipFrac l
  let (offSec, l) ← parseOffset l
  if l = [] ∧ 1 ≤ mo ∧ mo ≤ 12 ∧ 1 ≤ d ∧ d ≤ daysInMonth (Int.ofNat y) mo ∧
     h ≤ 23 ∧ mi ≤ 59 ∧ se ≤ 60 then
    let days := daysFromCivil (Int.ofNat y) mo d
    some (Int.fdiv (days * 86400 + (h : Int) * 3600 + (mi : Int) * 60 + (min se 59 : Nat) - offSec) 86400)
  else none

/-! ## The CSV record stream and `read_csv_info` -/

/-- One item of `rdr.records()`: a malformed CSV record (`Err` arm of the
scan loop) or a successfully read record with its cells. -/
inductive RecordResult where
  | err : RecordResult
  | ok : List String → RecordResult
deriving DecidableEq, Repr

/-- `struct CsvInfo` from `src/main.rs`. -/
structure CsvInfo where
  first_entry_date : Option Int
  last_entry_date : Option Int
  workout_logged_today : Bool
deriving DecidableEq, Repr

/-- `WORKOUT_COLUMN_INDEX` from `read_csv_info`. -/
def WORKOUT_COLUMN_INDEX : Nat := 10

/-- `TIMESTAMP_HEADER` from `read_csv_info`. -/
def TIMESTAMP_HEADER : String := "timestamp"

/-- One iteration of the `read_csv_info` scan loop: starting from the
accumulated `st`, process one record exactly as lines 249–307 of
`src/main.rs` do (skip malformed records, records with no timestamp cell,
re-read header rows, and records whose timestamp does not parse; otherwise
update the first/last dates and, on a today-dated row, the workout flag
from the cell at `WORKOUT_COLUMN_INDEX`). -/
def scanStep (today : Int) (st : CsvInfo) (r : RecordResult) : CsvInfo :=
  match r with
  | .err => st
  | .ok record =>
    match record.head? with
    | none => st
    | some ts_str =>
      if trimStr ts_str = TIMESTAMP_HEADER then st
      else
        match parse_from_rfc3339_date ts_str with
        | none => st
        | some current_date =>
          let first_date : Option Int :=
            match st.first_entry_date with
            | none => some current_date
            | some f => if current_date < f then some current_date else some f
          let workout : Bool :=
            if current_date = today then
              match record.get? WORKOUT_COLUMN_INDEX with
              | some workout_str =>
                  if eqIgnoreAsciiCase (trimStr workout_str) "true" then true
                  else st.workout_logged_today
              | none => st.workout_logged_today
            else st.workout_logged_today
          ⟨first_date, some current_date, workout⟩

/-- `read_csv_info` from `src/main.rs`: if the file does not exist, return
the empty summary; otherwise fold the scan loop over the record stream.
The function is total — a malformed record only produces a warning in the
source and never an error, so no failure case is modelled. -/
def read_csv_info (file : Option (List RecordResult)) (today : Int) : CsvInfo :=
  match file with
  | none => ⟨none, none, false⟩
  | some records => records.foldl (scanStep today) ⟨none, none, false⟩

/-- The date under which the scan loop counts a record, if any: the record
must be well formed, have a first cell that is not a re-read header, and
that cell must parse as an RFC3339 date-time. -/
def rowDate : RecordResult → Option Int
  | .err => none
  | .ok record =>
    match record.head? with
    | none => none
    | some ts_str =>
      if trimStr ts_str = TIMESTAMP_HEADER then none
      else parse_from_rfc3339_date ts_str

/-! ## Rust `f32` parsing (`str::parse::<f32>()`) -/

/-- An exact decimal value `num * 10 ^ (-scale)`. -/
structure Decimal where
  num : Int
  scale : Int
deriving DecidableEq, Repr

/-- A parsed `f32` input value.  Finite values are kept as exact decimals;
binary rounding is not modelled (no property proved here depends on it). -/
inductive F32 where
  | nan
  | inf (neg : Bool)
  | finite (d : Decimal)
deriving DecidableEq, Repr

/-- Comparison of two exact decimals, by scaling to a common exponent. -/
def Decimal.le (a b : Decimal) : Bool :=
  let s := max a.scale b.scale
  a.num * 10 ^ (s - a.scale).toNat ≤ b.num * 10 ^ (s - b.scale).toNat

/-- Rust `f32` `<=`: false on NaN, standard on infinities, exact on
finite decimals. -/
def F32.le : F32 → F32 → Bool
  | .nan, _ => false
  | _, .nan => false
  | .inf true, _ => true
  | _, .inf false => true
  | .inf false, _ => false
  | _, .inf true => false
  | .finite a, .finite b => Decimal.le a b

/-- Split the character list at the first `e`/`E` (exponent marker). -/
def splitExp : List Char → (List Char × Option (List Char))
  | [] => ([], none)
  | c :: rest =>
    if c = 'e' ∨ c = 'E' then ([], some rest)
    else
      let p := splitExp rest
      (c :: p.1, p.2)

/-- The mantissa grammar of Rust float parsing: digits, optionally with a
single dot, at least one digit overall.  Returns integral and fractional
digit lists. -/
def parseMantissa (l : List Char) : Option (List Char × List Char) :=
  let intPart := l.takeWhile isDigitCh
  let rest := l.dropWhile isDigitCh
  match rest with
  | [] => if intPart = [] then none else some (intPart, [])
  | '.' :: frac =>
    if frac.all isDigitCh ∧ (intPart ≠ [] ∨ frac ≠ []) then some (intPart, frac) else none
  | _ => none

/-- The exponent part of Rust float parsing: optional sign, then digits. -/
def parseExpPart : List Char → Option Int
  | [] => none
  | '+' :: ds => if ds ≠ [] ∧ ds.all isDigitCh then some (Int.ofNat (natOfDigits ds)) else none
  | '-' :: ds => if ds ≠ [] ∧ ds.all isDigitCh then some (-Int.ofNat (natOfDigits ds)) else none
  | ds => if ds.all isDigitCh then some (Int.ofNat (natOfDigits ds)) else none

/-- Rust `str::parse::<f32>()`: optional sign, then `inf`/`infinity`/`nan`
(case-insensitive) or a decimal number with optional fraction and
exponent.  `none` models `Err(ParseFloatError)`. -/
def parse_f32 (s : String) : Option F32 :=
  let p : Bool × List Char :=
    match s.toList with
    | '+' :: rest => (false, rest)
    | '-' :: rest => (true, rest)
    | rest => (false, rest)
  let negSign := p.1
  let low := p.2.map asciiLower
  if low = "inf".toList ∨ low = "infinity".toList then some (.inf negSign)
  else if low = "nan".toList then some .nan
  else
    let me := splitExp p.2
    match parseMantissa me.1 with
    | none => none
    | some (intDigits, fracDigits) =>
      let expVal : Option Int :=
        match me.2 with
        | none => some 0
        | some ep => parseExpPart ep
      match expVal with
      | none => none
      | some ex =>
        let mag : Int := Int.ofNat (natOfDigits (intDigits ++ fracDigits))
        some (.finite ⟨if negSign then -mag else mag, Int.ofNat fracDigits.length - ex⟩)

/-- Rust `str::parse::<u8>()`: optional `+`, then digits, value at most
255.  `none` models `Err(ParseIntError)`. -/
def parse_u8 (s : String) : Option Nat :=
  let l : List Char :=
    match s.toList with
    | '+' :: rest => rest
    | rest => rest
  if l ≠ [] ∧ l.all isDigitCh then
    let v := natOfDigits l
    if v ≤ 255 then some v else none
  else none

/-! ## The prompt validators (`src/main.rs` closures) -/

/-- The sleep-hours validator (lines 95–107): the input must parse as an
`f32` and satisfy `val <= 12.0`.  No lower bound is checked. -/
def sleep_hours_validator (input : String) : Bool :=
  match parse_f32 input with
  | some val => F32.le val (.finite ⟨12, 0⟩)
  | none => false

/-- The sleep-quality validator (lines 116–127): the input must parse as an
`f32` with `(1.0..=10.0).contains(&val)`. -/
def sleep_quality_validator (input : String) : Bool :=
  match parse_f32 input with
  | some val => F32.le (.finite ⟨1, 0⟩) val && F32.le val (.finite ⟨10, 0⟩)
  | none => false

/-- The rating validator (`ask_rating`, lines 212–223): the input must
parse as a `u8` with `(1..=10).contains(&val)`. -/
def rating_validator (input : String) : Bool :=
  match parse_u8 input with
  | some val => decide (1 ≤ val) && decide (val ≤ 10)
  | none => false

/-- Claim C1's stated acceptance condition, following the claim's words:
the input parses as a number lying in the inclusive range [0, 12].
(The source validator above checks only the upper bound.) -/
def sleep_hours_claim_accept (input : String) : Bool :=
  match parse_f32 input with
  | some val => F32.le (.finite ⟨0, 0⟩) val && F32.le val (.finite ⟨12, 0⟩)
  | none => false

/-! ## Errors and the interaction model -/

/-- `enum AppError` from `src/main.rs` (payloads dropped). -/
inductive AppError where
  | CsvError
  | IoError
  | DateParseError
  | DialogCancelled
deriving DecidableEq, Repr

/-- An error escaping `main` as `Box<dyn Error>`: either an `AppError` or
the `ParseFloatError` of the re-parse at lines 111 and 131. -/
inductive RunError where
  | app (e : AppError)
  | parseFloatError
deriving DecidableEq, Repr

deriving instance DecidableEq for Except

/-- The interaction monad: `none` models a prompt session that never
completes (the user is reprompted forever), `some (.error e)` a run failed
with `e`, `some (.ok a)` a produced value. -/
abbrev M (α : Type) : Type := Option (Except RunError α)

/-- Return a value in `M`. -/
def mpure {α : Type} (a : α) : M α := some (.ok a)

/-- Sequence two computations in `M`. -/
def mbind {α β : Type} (x : M α) (f : α → M β) : M β :=
  match x with
  | none => none
  | some (.error e) => some (.error e)
  | some (.ok a) => f a

/-- Fail in `M`. -/
def mthrow {α : Type} (e : RunError) : M α := some (.error e)

/-- Terminal events of one text-prompt loop: the user either aborts the
dialog or submits a text. -/
inductive Ev where
  | cancel
  | text (s : String)
deriving DecidableEq, Repr

/-- Terminal events of one confirm-prompt loop. -/
inductive CEv where
  | cancel
  | answer (b : Bool)
deriving DecidableEq, Repr

/-- The text a prompt actually processes: an empty submission is replaced
by the default when one is set. -/
def effInput (dflt : Option String) (s : String) : String :=
  if s = "" then (match dflt with | some d => d | none => s) else s

/-- `dialoguer::Input::interact_text` with a validator and an optional
default: an abort becomes `AppError::DialogCancelled` (the `map_err` in the
source); an empty submission is replaced by the default when one is set; a
text failing the validator causes a reprompt (next event); a text passing
it is returned. -/
def interact_text (validator : String → Bool) (dflt : Option String) : List Ev → M String
  | [] => none
  | Ev.cancel :: _ => mthrow (.app .DialogCancelled)
  | Ev.text s :: rest =>
    if validator (effInput dflt s) then mpure (effInput dflt s)
    else interact_text validator dflt rest

/-- `dialoguer::Confirm::interact`: an abort becomes
`AppError::DialogCancelled`; a yes/no answer is returned. -/
def interact_confirm : List CEv → M Bool
  | [] => none
  | CEv.cancel :: _ => mthrow (.app .DialogCancelled)
  | CEv.answer b :: _ => mpure b

/-- `fn ask_rating` from `src/main.rs`: prompt with the rating validator,
then re-parse the validated text as `u8`; a re-parse failure is mapped to
`AppError::IoError` (line 227). -/
def ask_rating (evs : List Ev) : M Nat :=
  mbind (interact_text rating_validator none evs) fun s =>
    match parse_u8 s with
    | some v => mpure v
    | none => mthrow (.app .IoError)

/-- The `.parse::<f32>()?` re-parse of a validated input (lines 111, 131):
its error leaves `main` as a boxed `ParseFloatError`. -/
def reparse_f32 (s : String) : M F32 :=
  match parse_f32 s with
  | some v => mpure v
  | none => mthrow .parseFloatError

/-! ## The collector (`main`, lines 59–206) -/

/-- `struct LogEntry` from `src/main.rs`. -/
structure LogEntry where
  timestamp : String
  day_count : Int
  sleep_hours : Option F32
  sleep_quality : Option F32
  sleepiness : Nat
  zonkedness : Nat
  energy : Nat
  strength : Nat
  focus : Nat
  intelligence : Nat
  workout_today : Bool
  remarks : String
deriving DecidableEq, Repr

/-- Lines 68–71: this is the first entry of the day when there is no last
entry date or it differs from today. -/
def is_first_entry_today (info : CsvInfo) (today : Int) : Bool :=
  match info.last_entry_date with
  | some last_date => last_date ≠ today
  | none => true

/-- Line 74: the first entry date, defaulting to today. -/
def first_ever_date (info : CsvInfo) (today : Int) : Int :=
  info.first_entry_date.getD today

/-- Line 77: `(today - first_ever_date).num_days() + 1`. -/
def day_count (info : CsvInfo) (today : Int) : Int :=
  today - first_ever_date info today + 1

/-- The user's behaviour at each prompt of one run, as event lists. -/
structure Inputs where
  sleep_hours : List Ev
  sleep_quality : List Ev
  sleepiness : List Ev
  zonkedness : List Ev
  energy : List Ev
  strength : List Ev
  focus : List Ev
  intelligence : List Ev
  workout : List CEv
  remarks : List Ev
deriving Repr

/-- Which conditional prompts a run showed. -/
structure PromptLog where
  sleep_prompts : Bool
  workout_prompt : Bool
deriving DecidableEq, Repr

/-- Lines 88–135: on the first entry of the day prompt for sleep hours
(default "8") and sleep quality (default "7.5"), re-parsing each validated
text as `f32`; otherwise both fields stay `None`. -/
def collect_sleep (info : CsvInfo) (today : Int) (inp : Inputs) : M (Option F32 × Option F32) :=
  if is_first_entry_today info today then
    mbind (interact_text sleep_hours_validator (some "8") inp.sleep_hours) fun s =>
    mbind (reparse_f32 s) fun sh =>
    mbind (interact_text sleep_quality_validator (some "7.5") inp.sleep_quality) fun q =>
    mbind (reparse_f32 q) fun sq =>
    mpure (some sh, some sq)
  else mpure (none, none)

/-- Lines 144–165: ask the workout question only when no workout was logged
today yet; otherwise force `true` without prompting. -/
def collect_workout (info : CsvInfo) (inp : Inputs) : M Bool :=
  if !info.workout_logged_today then interact_confirm inp.workout
  else mpure true

/-- The whole interactive phase of `main` (lines 88–189), producing the
`LogEntry` built at lines 176–189 together with a record of which
conditional prompts were shown.  `now` is the RFC3339 text of the
timestamp taken at line 173, after all prompts. -/
def collect (info : CsvInfo) (today : Int) (now : String) (inp : Inputs) :
    M (LogEntry × PromptLog) :=
  mbind (collect_sleep info today inp) fun sleep =>
  mbind (ask_rating inp.sleepiness) fun sleepiness =>
  mbind (ask_rating inp.zonkedness) fun zonkedness =>
  mbind (ask_rating inp.energy) fun energy =>
  mbind (ask_rating inp.strength) fun strength =>
  mbind (ask_rating inp.focus) fun focus =>
  mbind (ask_rating inp.intelligence) fun intelligence =>
  mbind (collect_workout info inp) fun workout_today =>
  mbind (interact_text (fun _ => true) none inp.remarks) fun remarks =>
  mpure
    (⟨now, day_count info today, sleep.1, sleep.2, sleepiness, zonkedness, energy,
      strength, focus, intelligence, workout_today, remarks⟩,
     ⟨is_first_entry_today info today, !info.workout_logged_today⟩)

/-! ## The writer (`append_to_csv`, lines 318–355) -/

/-- Render a finite decimal the way the `csv` crate writes the parsed
number back out (integer part, then a fractional part when the scale is
positive).  Only its shape matters to the proofs: the timestamp cell, not
a numeric cell, is what distinguishes a data row from a header row. -/
def decimalToString (d : Decimal) : String :=
  let sign := if d.num < 0 then "-" else ""
  let a := d.num.natAbs
  if d.scale ≤ 0 then sign ++ toString (a * 10 ^ (-d.scale).toNat)
  else
    let p := 10 ^ d.scale.toNat
    let fracDigits := toString (p + a % p)
    sign ++ toString (a / p) ++ "." ++ fracDigits.drop 1

/-- Serialization of an `f32` cell. -/
def f32ToString (v : F32) : String :=
  match v with
  | .nan => "NaN"
  | .inf neg => if neg then "-inf" else "inf"
  | .finite d => decimalToString d

/-- An optional numeric cell: empty when absent (serde + csv behaviour). -/
def optF32Cell (v : Option F32) : String :=
  match v with
  | none => ""
  | some x => f32ToString x

/-- A boolean cell: literal `true`/`false`. -/
def boolCell (b : Bool) : String := if b then "true" else "false"

/-- The row the `csv` writer produces for one `LogEntry` (serde field
order, 12 cells). -/
def serialize_log_entry (e : LogEntry) : List String :=
  [e.timestamp, toString e.day_count, optF32Cell e.sleep_hours, optF32Cell e.sleep_quality,
   toString e.sleepiness, toString e.zonkedness, toString e.energy, toString e.strength,
   toString e.focus, toString e.intelligence, boolCell e.workout_today, e.remarks]

/-- The header record written at lines 334–347. -/
def header_record : List String :=
  ["timestamp", "day_count", "sleep_hours", "sleep_quality", "sleepiness", "zonkedness",
   "energy", "strength", "focus", "intelligence", "workout_today", "remarks"]

/-- The automatic header record the `csv` crate derives from `LogEntry`'s
serde field names on the first `serialize` call when `has_headers` is
enabled: the struct's field names, in declaration order. -/
def serde_header_record : List String :=
  ["timestamp", "day_count", "sleep_hours", "sleep_quality", "sleepiness", "zonkedness",
   "energy", "strength", "focus", "intelligence", "workout_today", "remarks"]

/-- `append_to_csv` from `src/main.rs`: check existence, open in
create-append mode, and build the writer with `has_headers(!file_exists)`.
On a new file the code manually writes `header_record` via `write_record`
(lines 331–348); then `wtr.serialize(entry)` runs.  In the `csv` crate,
`write_record` does not clear the writer's pending-header state, so when
`has_headers` was enabled (new file) the first `serialize` also writes the
automatic serde field-name header before the data row — a new file thus
receives two identical header rows.  On an existing file no header of
either kind is written.  The result is the new record list of the file. -/
def append_to_csv (file : Option (List RecordResult)) (entry : LogEntry) : List RecordResult :=
  let file_exists := file.isSome
  let rows := file.getD []
  let rows := if !file_exists then rows ++ [RecordResult.ok header_record] else rows
  let rows := if !file_exists then rows ++ [RecordResult.ok serde_header_record] else rows
  rows ++ [RecordResult.ok (serialize_log_entry entry)]

/-- One whole run of `main`: scan the file, run the interactive phase,
and on success append the entry.  The result pairs the run's outcome with
the final file state; a failed (or never-completing) run leaves the file
untouched.  I/O failures of open/read/write are outside this model. -/
def run (file : Option (List RecordResult)) (today : Int) (now : String) (inp : Inputs) :
    Option (Except RunError Unit × Option (List RecordResult)) :=
  let info := read_csv_info file today
  match collect info today now inp with
  | none => none
  | some (.error e) => some (.error e, file)
  | some (.ok p) => some (.ok (), some (append_to_csv file p.1))

/-! ## Derived views of a record used by the proofs -/

/-- The cell the scan loop reads for the workout check
(`record.get(WORKOUT_COLUMN_INDEX)`). -/
def workCell : RecordResult → Option String
  | .err => none
  | .ok record => record.get? WORKOUT_COLUMN_INDEX

/-- The state update the scan loop performs on a record counted under date
`d` with workout cell `w` (the non-skip branch of `scanStep`). -/
def scanUpdate (today : Int) (st : CsvInfo) (d : Int) (w : Option String) : CsvInfo :=
  ⟨match st.first_entry_date with | none => some d | some f => if d < f then some d else some f,
   some d,
   if d = today then
     match w with
     | some ws => if eqIgnoreAsciiCase (trimStr ws) "true" then true else st.workout_logged_today
     | none => st.workout_logged_today
   else st.workout_logged_today⟩

/-- A record that sets the workout flag: it is counted under today's date
and its workout cell, trimmed, reads `true` case-insensitively. -/
def rowTrigger (today : Int) (r : RecordResult) : Bool :=
  match rowDate r, workCell r with
  | some d, some w => d = today && eqIgnoreAsciiCase (trimStr w) "true"
  | _, _ => false

/-- Claim C2's stated row condition, following the claim's words: the
record is counted under today's date and its cell at column index 10 is
equal, case-insensitively and with no trimming, to `"true"`.  (The source
scanner trims the cell first; compare `rowTrigger`.) -/
def claim_row_sets_flag (today : Int) (r : RecordResult) : Bool :=
  match rowDate r, workCell r with
  | some d, some w => d = today && eqIgnoreAsciiCase w "true"
  | _, _ => false

/-- The first-date accumulator of the scan loop, restricted to dates. -/
def minUpd (o : Option Int) (d : Int) : Option Int :=
  match o with | none => some d | some f => if d < f then some d else some f

/-! ## Scan-loop lemmas -/

theorem scanStep_eq (today : Int) (st : CsvInfo) (r : RecordResult) :
    scanStep today st r =
      match rowDate r with
      | none => st
      | some d => scanUpdate today st d (workCell r) := by
  cases r with
  | err => rfl
  | ok record =>
    simp only [scanStep, rowDate, workCell]
    cases hrec : record.head? with
    | none => rfl
    | some ts =>
      by_cases hh : trimStr ts = TIMESTAMP_HEADER
      · simp [hh]
      · simp only [hh, if_false]
        cases parse_from_rfc3339_date ts with
        | none => rfl
        | some d => rfl

theorem scanStep_of_rowDate_none (today : Int) (st : CsvInfo) (r : RecordResult)
    (h : rowDate r = none) : scanStep today st r = st := by
  rw [scanStep_eq, h]

theorem foldl_scan_flag (today : Int) (rs : List RecordResult) :
    ∀ st : CsvInfo, (List.foldl (scanStep today) st rs).workout_logged_today
      = (st.workout_logged_today || rs.any (rowTrigger today)) := by
  induction rs with
  | nil => intro st; simp
  | cons r rs ih =>
    intro st
    rw [List.foldl_cons, ih, List.any_cons, ← Bool.or_assoc]
    have hstep : (scanStep today st r).workout_logged_today
        = (st.workout_logged_today || rowTrigger today r) := by
      rw [scanStep_eq]
      cases hd : rowDate r with
      | none => simp [rowTrigger, hd]
      | some d =>
        simp only [rowTrigger, hd, scanUpdate]
        cases hw : workCell r with
        | none => by_cases hdt : d = today <;> simp [hdt]
        | some w =>
          by_cases hdt : d = today <;>
            by_cases ht : eqIgnoreAsciiCase (trimStr w) "true" = true <;>
              simp [hdt, ht]
    rw [hstep]

theorem foldl_scan_first (today : Int) (rs : List RecordResult) :
    ∀ st : CsvInfo, (List.foldl (scanStep today) st rs).first_entry_date
      = (rs.filterMap rowDate).foldl minUpd st.first_entry_date := by
  induction rs with
  | nil => intro st; rfl
  | cons r rs ih =>
    intro st
    rw [List.foldl_cons, ih, List.filterMap_cons]
    cases hd : rowDate r with
    | none => rw [scanStep_eq, hd]
    | some d =>
      rw [scanStep_eq, hd, List.foldl_cons]
      rfl

theorem foldl_scan_last (today : Int) (rs : List RecordResult) :
    ∀ st : CsvInfo, (List.foldl (scanStep today) st rs).last_entry_date
      = (rs.filterMap rowDate).foldl (fun _ d => some d) st.last_entry_date := by
  induction rs with
  | nil => intro st; rfl
  | cons r rs ih =>
    intro st
    rw [List.foldl_cons, ih, List.filterMap_cons]
    cases hd : rowDate r with
    | none => rw [scanStep_eq, hd]
    | some d =>
      rw [scanStep_eq, hd, List.foldl_cons]
      rfl

theorem foldl_min_comm (t : List Int) : ∀ a d : Int, min d (t.foldl min a) = t.foldl min (min d a) := by
  induction t with
  | nil => intro a d; rfl
  | cons x t ih =>
    intro a d
    rw [List.foldl_cons, List.foldl_cons, ih, min_assoc]

theorem foldl_minUpd_some (ds : List Int) : ∀ f : Int, ds.foldl minUpd (some f) = some (ds.foldl min f) := by
  induction ds with
  | nil => intro f; rfl
  | cons d t ih =>
    intro f
    rw [List.foldl_cons, List.foldl_cons]
    have hstep : minUpd (some f) d = some (min f d) := by
      simp only [minUpd, min_def]
      by_cases h : d < f
      · rw [if_pos h, if_neg (by omega)]
      · rw [if_neg h, if_pos (by omega)]
    rw [hstep, ih]

theorem min?_eq_foldl_min (t : List Int) : ∀ d : Int, (d :: t).min? = some (t.foldl min d) := by
  induction t with
  | nil => intro d; rfl
  | cons a t ih =>
    intro d
    rw [List.min?_cons, ih, List.foldl_cons]
    simp only [Option.elim]
    rw [foldl_min_comm]

theorem foldl_minUpd_none (ds : List Int) : ds.foldl minUpd none = ds.min? := by
  cases ds with
  | nil => rfl
  | cons d t =>
    rw [List.foldl_cons, min?_eq_foldl_min]
    exact foldl_minUpd_some t d

theorem foldl_min_mem (t : List Int) : ∀ d : Int, t.foldl min d = d ∨ t.foldl min d ∈ t := by
  induction t with
  | nil => intro d; exact Or.inl rfl
  | cons x t ih =>
    intro d
    rw [List.foldl_cons]
    rcases ih (min d x) with h | h
    · rw [h]
      rcases min_choice d x with h2 | h2
      · exact Or.inl h2
      · rw [h2]; exact Or.inr (List.mem_cons_self x t)
    · exact Or.inr (List.mem_cons_of_mem x h)

theorem foldl_min_le (t : List Int) : ∀ d x : Int, x ∈ d :: t → t.foldl min d ≤ x := by
  induction t with
  | nil =>
    intro d x hx
    rw [List.mem_singleton] at hx
    rw [hx, List.foldl_nil]
  | cons a t ih =>
    intro d x hx
    rw [List.foldl_cons]
    rcases List.mem_cons.mp hx with rfl | h
    · exact le_trans (ih _ _ (List.mem_cons_self _ _)) (min_le_left _ _)
    · rcases List.mem_cons.mp h with rfl | h2
      · exact le_trans (ih _ _ (List.mem_cons_self _ _)) (min_le_right _ _)
      · exact ih _ _ (List.mem_cons_of_mem _ h2)

theorem foldl_replace_last (ds : List Int) :
    ∀ o : Option Int,
      ds.foldl (fun _ d => some d) o = match ds.getLast? with | none => o | some x => some x := by
  induction ds with
  | nil => intro o; rfl
  | cons d t ih =>
    intro o
    rw [List.foldl_cons, ih]
    cases t with
    | nil => rfl
    | cons b t2 =>
      rw [List.getLast?_cons_cons]
      cases hl : (b :: t2).getLast? with
      | none => exact absurd (List.getLast?_eq_none_iff.mp hl) (by simp)
      | some x => rfl

theorem read_csv_info_first (today : Int) (rs : List RecordResult) :
    (read_csv_info (some rs) today).first_entry_date = (rs.filterMap rowDate).min? := by
  show (List.foldl (scanStep today) ⟨none, none, false⟩ rs).first_entry_date = _
  rw [foldl_scan_first, foldl_minUpd_none]

theorem read_csv_info_last (today : Int) (rs : List RecordResult) :
    (read_csv_info (some rs) today).last_entry_date = (rs.filterMap rowDate).getLast? := by
  show (List.foldl (scanStep today) ⟨none, none, false⟩ rs).last_entry_date = _
  rw [foldl_scan_last, foldl_replace_last]
  cases (rs.filterMap rowDate).getLast? <;> rfl

theorem read_csv_info_flag (today : Int) (rs : List RecordResult) :
    (read_csv_info (some rs) today).workout_logged_today = rs.any (rowTrigger today) := by
  show (List.foldl (scanStep today) ⟨none, none, false⟩ rs).workout_logged_today = _
  rw [foldl_scan_flag]
  rfl

/-! ## Interaction lemmas -/

theorem mbind_ok {α β : Type} {x : M α} {f : α → M β} {b : β}
    (h : mbind x f = some (Except.ok b)) :
    ∃ a, x = some (Except.ok a) ∧ f a = some (Except.ok b) := by
  cases x with
  | none => simp [mbind] at h
  | some r =>
    cases r with
    | error e => simp [mbind] at h
    | ok a => exact ⟨a, rfl, h⟩

theorem mbind_err {α β : Type} {x : M α} {f : α → M β} {e : RunError}
    (h : mbind x f = some (Except.error e)) :
    x = some (Except.error e) ∨ ∃ a, x = some (Except.ok a) ∧ f a = some (Except.error e) := by
  cases x with
  | none => simp [mbind] at h
  | some r =>
    cases r with
    | error e2 =>
      simp only [mbind, Option.some.injEq, Except.error.injEq] at h
      exact Or.inl (by rw [h])
    | ok a => exact Or.inr ⟨a, rfl, h⟩

theorem interact_text_err (validator : String → Bool) (dflt : Option String) :
    ∀ (evs : List Ev) (e : RunError),
      interact_text validator dflt evs = some (Except.error e) →
      e = RunError.app AppError.DialogCancelled := by
  intro evs
  induction evs with
  | nil => intro e h; simp [interact_text] at h
  | cons ev rest ih =>
    intro e h
    cases ev with
    | cancel =>
      simp only [interact_text, mthrow, Option.some.injEq, Except.error.injEq] at h
      exact h.symm
    | text s =>
      simp only [interact_text] at h
      split at h
      · simp [mpure] at h
      · exact ih e h

theorem interact_text_valid (validator : String → Bool) (dflt : Option String) :
    ∀ (evs : List Ev) (s : String),
      interact_text validator dflt evs = some (Except.ok s) → validator s = true := by
  intro evs
  induction evs with
  | nil => intro s h; simp [interact_text] at h
  | cons ev rest ih =>
    intro s h
    cases ev with
    | cancel => simp [interact_text, mthrow] at h
    | text s0 =>
      simp only [interact_text] at h
      split at h
      · next hv =>
        simp only [mpure, Option.some.injEq, Except.ok.injEq] at h
        rw [← h]
        exact hv
      · exact ih s h

theorem interact_confirm_err :
    ∀ (evs : List CEv) (e : RunError),
      interact_confirm evs = some (Except.error e) →
      e = RunError.app AppError.DialogCancelled := by
  intro evs e h
  cases evs with
  | nil => simp [interact_confirm] at h
  | cons ev rest =>
    cases ev with
    | cancel =>
      simp only [interact_confirm, mthrow, Option.some.injEq, Except.error.injEq] at h
      exact h.symm
    | answer b => simp [interact_confirm, mpure] at h

theorem rating_validator_parse {s : String} (h : rating_validator s = true) :
    ∃ v, parse_u8 s = some v ∧ 1 ≤ v ∧ v ≤ 10 := by
  unfold rating_validator at h
  cases hp : parse_u8 s with
  | none => rw [hp] at h; simp at h
  | some v =>
    rw [hp] at h
    simp only [Bool.and_eq_true, decide_eq_true_eq] at h
    exact ⟨v, rfl, h.1, h.2⟩

theorem sleep_hours_validator_parse {s : String} (h : sleep_hours_validator s = true) :
    ∃ v, parse_f32 s = some v := by
  unfold sleep_hours_validator at h
  cases hp : parse_f32 s with
  | none => rw [hp] at h; simp at h
  | some v => exact ⟨v, rfl⟩

theorem sleep_quality_validator_parse {s : String} (h : sleep_quality_validator s = true) :
    ∃ v, parse_f32 s = some v := by
  unfold sleep_quality_validator at h
  cases hp : parse_f32 s with
  | none => rw [hp] at h; simp at h
  | some v => exact ⟨v, rfl⟩

theorem collect_sleep_err {info : CsvInfo} {today : Int} {inp : Inputs} {e : RunError}
    (h : collect_sleep info today inp = some (Except.error e)) :
    e = RunError.app AppError.DialogCancelled := by
  unfold collect_sleep at h
  split at h
  · rcases mbind_err h with h1 | ⟨s, hs, h2⟩
    · exact interact_text_err _ _ _ _ h1
    · rcases mbind_err h2 with h3 | ⟨sh, hsh, h4⟩
      · rcases sleep_hours_validator_parse (interact_text_valid _ _ _ _ hs) with ⟨v, hv⟩
        unfold reparse_f32 at h3
        rw [hv] at h3
        simp [mpure] at h3
      · rcases mbind_err h4 with h5 | ⟨q, hq, h6⟩
        · exact interact_text_err _ _ _ _ h5
        · rcases mbind_err h6 with h7 | ⟨sq, hsq, h8⟩
          · rcases sleep_quality_validator_parse (interact_text_valid _ _ _ _ hq) with ⟨v, hv⟩
            unfold reparse_f32 at h7
            rw [hv] at h7
            simp [mpure] at h7
          · simp [mpure] at h8
  · simp [mpure] at h

theorem ask_rating_err {evs : List Ev} {e : RunError}
    (h : ask_rating evs = some (Except.error e)) :
    e = RunError.app AppError.DialogCancelled := by
  unfold ask_rating at h
  rcases mbind_err h with h1 | ⟨s, hs, h2⟩
  · exact interact_text_err _ _ _ _ h1
  · rcases rating_validator_parse (interact_text_valid _ _ _ _ hs) with ⟨v, hv, _, _⟩
    rw [hv] at h2
    simp [mpure] at h2

theorem collect_workout_err {info : CsvInfo} {inp : Inputs} {e : RunError}
    (h : collect_workout info inp = some (Except.error e)) :
    e = RunError.app AppError.DialogCancelled := by
  unfold collect_workout at h
  split at h
  · exact interact_confirm_err _ _ h
  · simp [mpure] at h

theorem collect_err {info : CsvInfo} {today : Int} {now : String} {inp : Inputs} {e : RunError}
    (h : collect info today now inp = some (Except.error e)) :
    e = RunError.app AppError.DialogCancelled := by
  unfold collect at h
  rcases mbind_err h with h1 | ⟨_, _, h2⟩
  · exact collect_sleep_err h1
  rcases mbind_err h2 with h1 | ⟨_, _, h2⟩
  · exact ask_rating_err h1
  rcases mbind_err h2 with h1 | ⟨_, _, h2⟩
  · exact ask_rating_err h1
  rcases mbind_err h2 with h1 | ⟨_, _, h2⟩
  · exact ask_rating_err h1
  rcases mbind_err h2 with h1 | ⟨_, _, h2⟩
  · exact ask_rating_err h1
  rcases mbind_err h2 with h1 | ⟨_, _, h2⟩
  · exact ask_rating_err h1
  rcases mbind_err h2 with h1 | ⟨_, _, h2⟩
  · exact ask_rating_err h1
  rcases mbind_err h2 with h1 | ⟨_, _, h2⟩
  · exact collect_workout_err h1
  rcases mbind_err h2 with h1 | ⟨_, _, h2⟩
  · exact interact_text_err _ _ _ _ h1
  simp [mpure] at h2

theorem collect_ok {info : CsvInfo} {today : Int} {now : String} {inp : Inputs}
    {entry : LogEntry} {log : PromptLog}
    (h : collect info today now inp = some (Except.ok (entry, log))) :
    ∃ sleep r1 r2 r3 r4 r5 r6 w rem,
      collect_sleep info today inp = some (Except.ok sleep) ∧
      collect_workout info inp = some (Except.ok w) ∧
      interact_text (fun _ => true) none inp.remarks = some (Except.ok rem) ∧
      entry = ⟨now, day_count info today, sleep.1, sleep.2, r1, r2, r3, r4, r5, r6, w, rem⟩ ∧
      log = ⟨is_first_entry_today info today, !info.workout_logged_today⟩ := by
  unfold collect at h
  rcases mbind_ok h with ⟨sleep, hsleep, h⟩
  rcases mbind_ok h with ⟨r1, hr1, h⟩
  rcases mbind_ok h with ⟨r2, hr2, h⟩
  rcases mbind_ok h with ⟨r3, hr3, h⟩
  rcases mbind_ok h with ⟨r4, hr4, h⟩
  rcases mbind_ok h with ⟨r5, hr5, h⟩
  rcases mbind_ok h with ⟨r6, hr6, h⟩
  rcases mbind_ok h with ⟨w, hw, h⟩
  rcases mbind_ok h with ⟨rem, hrem, h⟩
  simp only [mpure, Option.some.injEq, Except.ok.injEq, Prod.mk.injEq] at h
  exact ⟨sleep, r1, r2, r3, r4, r5, r6, w, rem, hsleep, hw, hrem, h.1.symm, h.2.symm⟩

theorem collect_sleep_ok_first {info : CsvInfo} {today : Int} {inp : Inputs}
    {sleep : Option F32 × Option F32}
    (hf : is_first_entry_today info today = true)
    (h : collect_sleep info today inp = some (Except.ok sleep)) :
    ∃ a b, sleep = (some a, some b) := by
  unfold collect_sleep at h
  rw [hf] at h
  simp only [if_true] at h
  rcases mbind_ok h with ⟨s, hs, h⟩
  rcases mbind_ok h with ⟨sh, hsh, h⟩
  rcases mbind_ok h with ⟨q, hq, h⟩
  rcases mbind_ok h with ⟨sq, hsq, h⟩
  simp only [mpure, Option.some.injEq, Except.ok.injEq] at h
  exact ⟨sh, sq, h.symm⟩

theorem collect_sleep_ok_followup {info : CsvInfo} {today : Int} {inp : Inputs}
    {sleep : Option F32 × Option F32}
    (hf : is_first_entry_today info today = false)
    (h : collect_sleep info today inp = some (Except.ok sleep)) :
    sleep = (none, none) := by
  unfold collect_sleep at h
  rw [hf] at h
  simp only [Bool.false_eq_true, if_false] at h
  simp only [mpure, Option.some.injEq, Except.ok.injEq] at h
  exact h.symm

theorem collect_workout_ok_logged {info : CsvInfo} {inp : Inputs} {w : Bool}
    (hl : info.workout_logged_today = true)
    (h : collect_workout info inp = some (Except.ok w)) : w = true := by
  unfold collect_workout at h
  rw [hl] at h
  simp only [Bool.not_true, Bool.false_eq_true, if_false] at h
  simp only [mpure, Option.some.injEq, Except.ok.injEq] at h
  exact h.symm

theorem collect_workout_ok_unlogged {info : CsvInfo} {inp : Inputs} {w : Bool}
    (hl : info.workout_logged_today = false)
    (h : collect_workout info inp = some (Except.ok w)) :
    interact_confirm inp.workout = some (Except.ok w) := by
  unfold collect_workout at h
  rw [hl] at h
  simpa using h

theorem min?_mem {ds : List Int} {f : Int} (h : ds.min? = some f) : f ∈ ds := by
  cases ds with
  | nil => simp [List.min?] at h
  | cons d t =>
    rw [min?_eq_foldl_min] at h
    have hf : t.foldl min d = f := by simpa using h
    rcases foldl_min_mem t d with h2 | h2
    · rw [← hf, h2]; exact List.mem_cons_self _ _
    · rw [← hf]; exact List.mem_cons_of_mem _ h2

theorem min?_le {ds : List Int} {f x : Int} (h : ds.min? = some f) (hx : x ∈ ds) : f ≤ x := by
  cases ds with
  | nil => simp at hx
  | cons d t =>
    rw [min?_eq_foldl_min] at h
    have hf : t.foldl min d = f := by simpa using h
    rw [← hf]
    exact foldl_min_le t d x hx

/-! ## The claims -/

/-- C1: the spec and the prompt's own error message demand that the
sleep-hours prompt accept exactly the inputs parsing to a number in
[0, 12], but the source validator (line 98) checks only `val <= 12.0`.
On the failing input `"-5"` the code accepts and, in a run where
`is_first_entry_today` holds, records `sleep_hours = -5`, outside [0, 12]:
the code contradicts its own message "Please enter a number between 0 and
12" and its comment claiming a lower bound of 0. -/
theorem C1_sleep_hours_negative_accepted :
    sleep_hours_validator "-5" = true ∧
    sleep_hours_claim_accept "-5" = false ∧
    is_first_entry_today ⟨none, none, false⟩ 20738 = true ∧
    (mbind
        (collect ⟨none, none, false⟩ 20738 "2026-10-12T20:00:00+00:00"
          ⟨[Ev.text "-5"], [Ev.text "7.5"], [Ev.text "5"], [Ev.text "5"], [Ev.text "5"],
           [Ev.text "5"], [Ev.text "5"], [Ev.text "5"], [CEv.answer true], [Ev.text "ok"]⟩)
        fun p => mpure p.1.sleep_hours)
      = mpure (some (F32.finite ⟨-5, 0⟩)) := by
  refine ⟨by decide, by decide, by decide, by decide⟩

/-- C2, counterexample: the scanner trims the workout cell before the
case-insensitive comparison (line 293), so a history whose single
today-dated row has `" true"` (leading space) at column index 10 sets
`workout_logged_today = true`, although that cell is not case-insensitively
equal to `"true"` — the claim's untrimmed iff fails on this input. -/
theorem C2_counterexample :
    (read_csv_info (some [RecordResult.ok
        ["2026-10-12T08:00:00+00:00", "3", "7.5", "8.0", "3", "3", "5", "5", "5", "5",
         " true", "hi"]]) 20738).workout_logged_today = true ∧
    (["2026-10-12T08:00:00+00:00", "3", "7.5", "8.0", "3", "3", "5", "5", "5", "5",
      " true", "hi"] : List String).get? WORKOUT_COLUMN_INDEX = some " true" ∧
    eqIgnoreAsciiCase " true" "true" = false ∧
    ([RecordResult.ok
        ["2026-10-12T08:00:00+00:00", "3", "7.5", "8.0", "3", "3", "5", "5", "5", "5",
         " true", "hi"]] : List RecordResult).any (claim_row_sets_flag 20738) = false := by
  refine ⟨by decide, by decide, by decide, by decide⟩

/-- C2, amended: `workout_logged_today` is true iff some record counted
under today's date has a cell at column index 10 that, after trimming,
reads `true` case-insensitively; rows dated other than today never set the
flag, and index 10 is the position of `workout_today` in the 12-column
Variant-A header the writer emits. -/
theorem C2_workout_flag_iff_trimmed (records : List RecordResult) (today : Int) :
    ((read_csv_info (some records) today).workout_logged_today = true ↔
      ∃ r ∈ records, rowDate r = some today ∧
        ∃ w, workCell r = some w ∧ eqIgnoreAsciiCase (trimStr w) "true" = true) ∧
    header_record.get? WORKOUT_COLUMN_INDEX = some "workout_today" ∧
    header_record.length = 12 := by
  refine ⟨?_, by decide, by decide⟩
  rw [read_csv_info_flag, List.any_eq_true]
  constructor
  · rintro ⟨r, hr, ht⟩
    refine ⟨r, hr, ?_⟩
    cases hd : rowDate r with
    | none => unfold rowTrigger at ht; rw [hd] at ht; simp at ht
    | some d =>
      cases hw : workCell r with
      | none => unfold rowTrigger at ht; rw [hd, hw] at ht; simp at ht
      | some w =>
        unfold rowTrigger at ht
        rw [hd, hw] at ht
        simp only [Bool.and_eq_true, decide_eq_true_eq] at ht
        exact ⟨by rw [ht.1], w, rfl, ht.2⟩
  · rintro ⟨r, hr, hd, w, hw, htr⟩
    refine ⟨r, hr, ?_⟩
    unfold rowTrigger
    rw [hd, hw]
    simp [htr]

/-- C6: corrupted records — CSV-malformed ones, records with no timestamp
cell, and records whose timestamp does not parse — are skipped by the scan
with a warning and never abort it (the model of `read_csv_info` is total by
construction): the whole summary equals the one computed from the
successfully counted records alone. -/
theorem C6_malformed_rows_skipped (records : List RecordResult) (today : Int) :
    read_csv_info (some records) today =
      read_csv_info (some (records.filter (fun r => (rowDate r).isSome))) today := by
  show List.foldl (scanStep today) ⟨none, none, false⟩ records = _
  have key : ∀ (rs : List RecordResult) (st : CsvInfo),
      List.foldl (scanStep today) st rs
        = List.foldl (scanStep today) st (rs.filter (fun r => (rowDate r).isSome)) := by
    intro rs
    induction rs with
    | nil => intro st; rfl
    | cons r t ih =>
      intro st
      rw [List.filter_cons]
      cases hd : rowDate r with
      | none =>
        rw [List.foldl_cons, scanStep_of_rowDate_none today st r hd, if_neg (by simp)]
        exact ih st
      | some d =>
        rw [if_pos (by simp), List.foldl_cons, List.foldl_cons]
        exact ih _
  exact key records ⟨none, none, false⟩

/-- C8: the claim (and spec §4.3) requires exactly one 12-column Variant-A
header row before the data row when the file did not exist.  The code is
wrong there: on a new file it writes the header twice — the manual
`write_record` header plus the `csv` crate's automatic serde field-name
header that the first `serialize` emits, because `write_record` leaves the
`has_headers(true)` state pending.  (The scanner's "accidentally re-read
header" skip is what later fires on such files.)  The rest of the claim
holds: headers appear only on a new file, exactly one serialized entry row
is appended, and the prior contents are an unchanged prefix. -/
theorem C8_double_header_on_new_file (entry : LogEntry) :
    append_to_csv none entry
      = [RecordResult.ok header_record, RecordResult.ok serde_header_record,
         RecordResult.ok (serialize_log_entry entry)] ∧
    serde_header_record = header_record ∧
    (∀ rows : List RecordResult,
      append_to_csv (some rows) entry = rows ++ [RecordResult.ok (serialize_log_entry entry)]) ∧
    (∀ file : Option (List RecordResult),
      ∃ suffix, append_to_csv file entry = file.getD [] ++ suffix) ∧
    header_record.length = 12 ∧ (serialize_log_entry entry).length = 12 := by
  refine ⟨rfl, rfl, fun rows => rfl, ?_, by decide, by rfl⟩
  intro file
  cases file with
  | none =>
    exact ⟨[RecordResult.ok header_record, RecordResult.ok serde_header_record,
            RecordResult.ok (serialize_log_entry entry)], rfl⟩
  | some rows => exact ⟨[RecordResult.ok (serialize_log_entry entry)], rfl⟩

/-- C10: when the file exists, `append_to_csv` appends the entry row
without a header regardless of the file's contents; in particular an
existing empty file receives exactly the one data row and no header row. -/
theorem C10_append_empty_existing_file (entry : LogEntry) :
    (∀ rows : List RecordResult,
      append_to_csv (some rows) entry = rows ++ [RecordResult.ok (serialize_log_entry entry)]) ∧
    append_to_csv (some []) entry = [RecordResult.ok (serialize_log_entry entry)] ∧
    (entry.timestamp ≠ "timestamp" →
      RecordResult.ok header_record ∉ append_to_csv (some []) entry) := by
  refine ⟨fun rows => rfl, rfl, fun hts hmem => ?_⟩
  rw [show append_to_csv (some []) entry = [RecordResult.ok (serialize_log_entry entry)] from rfl,
      List.mem_singleton] at hmem
  injection hmem with h
  have hhead : "timestamp" = entry.timestamp := by
    have h2 := congrArg (fun l => l.head?) h
    simpa [header_record, serialize_log_entry] using h2
  exact hts hhead.symm

/-- C10, witness: a concrete entry with a genuine timestamp cell. -/
theorem C10_witness :
    (⟨"2026-10-12T20:00:00+00:00", 1, none, none, 5, 5, 5, 5, 5, 5, true, ""⟩ :
        LogEntry).timestamp ≠ "timestamp" ∧
    RecordResult.ok header_record ∉
      append_to_csv (some [])
        ⟨"2026-10-12T20:00:00+00:00", 1, none, none, 5, 5, 5, 5, 5, 5, true, ""⟩ :=
  ⟨by decide, (C10_append_empty_existing_file _).2.2 (by decide)⟩

/-- C3: in a run whose scan summary has `workout_logged_today = true`, the
workout confirmation prompt is not shown and the new entry's
`workout_today` is forced to `true`; otherwise the prompt is shown and the
user's yes/no answer is stored verbatim. -/
theorem C3_workout_forced (info : CsvInfo) (today : Int) (now : String) (inp : Inputs)
    (entry : LogEntry) (log : PromptLog)
    (h : collect info today now inp = some (Except.ok (entry, log))) :
    (info.workout_logged_today = true →
      log.workout_prompt = false ∧ entry.workout_today = true) ∧
    (info.workout_logged_today = false →
      log.workout_prompt = true ∧
      ∀ b, interact_confirm inp.workout = some (Except.ok b) → entry.workout_today = b) := by
  rcases collect_ok h with ⟨sleep, r1, r2, r3, r4, r5, r6, w, rem, hsleep, hw, hrem, hentry, hlog⟩
  constructor
  · intro hflag
    refine ⟨by simp [hlog, hflag], ?_⟩
    rw [hentry]
    exact collect_workout_ok_logged hflag hw
  · intro hflag
    refine ⟨by simp [hlog, hflag], fun b hb => ?_⟩
    have hic := collect_workout_ok_unlogged hflag hw
    rw [hic] at hb
    simp only [Option.some.injEq, Except.ok.injEq] at hb
    rw [hentry]
    exact hb

/-- C3, witness: with today's workout already logged, a concrete run skips
the prompt and stores `workout_today = true`. -/
theorem C3_witness :
    (⟨false, false⟩ : PromptLog).workout_prompt = false ∧
    (⟨"ts", 2, none, none, 5, 5, 5, 5, 5, 5, true, "hi"⟩ : LogEntry).workout_today = true :=
  (C3_workout_forced ⟨some 20737, some 20738, true⟩ 20738 "ts"
      ⟨[], [], [Ev.text "5"], [Ev.text "5"], [Ev.text "5"], [Ev.text "5"], [Ev.text "5"],
       [Ev.text "5"], [], [Ev.text "hi"]⟩
      ⟨"ts", 2, none, none, 5, 5, 5, 5, 5, 5, true, "hi"⟩ ⟨false, false⟩ (by decide)).1 rfl

/-- C4: `day_count` is computed as `(today − (first_entry_date or today))
in days + 1`; it is `1` when no file existed, it is at least `1` for every
history whose parsed dates do not lie in the future, and the collector
stores exactly this value in the entry. -/
theorem C4_day_count (today : Int) :
    (∀ info : CsvInfo, day_count info today = today - (info.first_entry_date.getD today) + 1) ∧
    day_count (read_csv_info none today) today = 1 ∧
    (∀ records : List RecordResult,
      (∀ d ∈ records.filterMap rowDate, d ≤ today) →
      1 ≤ day_count (read_csv_info (some records) today) today) ∧
    (∀ (info : CsvInfo) (now : String) (inp : Inputs) (entry : LogEntry) (log : PromptLog),
      collect info today now inp = some (Except.ok (entry, log)) →
      entry.day_count = day_count info today) := by
  refine ⟨fun info => rfl, ?_, ?_, ?_⟩
  · show today - today + 1 = 1
    omega
  · intro records hval
    cases hfd : (read_csv_info (some records) today).first_entry_date with
    | none =>
      unfold day_count first_ever_date
      rw [hfd]
      show 1 ≤ today - today + 1
      omega
    | some f =>
      have hmem : f ∈ records.filterMap rowDate := by
        rw [read_csv_info_first] at hfd
        exact min?_mem hfd
      have hle := hval f hmem
      unfold day_count first_ever_date
      rw [hfd]
      show 1 ≤ today - f + 1
      omega
  · intro info now inp entry log h
    rcases collect_ok h with ⟨sleep, r1, r2, r3, r4, r5, r6, w, rem, _, _, _, hentry, _⟩
    rw [hentry]

/-- C4, witness: a single valid yesterday-dated row gives a day count of at
least 1 (in fact 2). -/
theorem C4_witness :
    (∀ d ∈ ([RecordResult.ok
        ["2026-10-11T08:00:00+00:00", "1", "7", "8", "3", "3", "5", "5", "5", "5", "true", ""]] :
          List RecordResult).filterMap rowDate, d ≤ 20738) ∧
    1 ≤ day_count
        (read_csv_info (some [RecordResult.ok
          ["2026-10-11T08:00:00+00:00", "1", "7", "8", "3", "3", "5", "5", "5", "5", "true", ""]])
          20738) 20738 :=
  ⟨by decide, (C4_day_count 20738).2.2.1 _ (by decide)⟩

/-- C5: `is_first_entry_today` holds exactly when the last entry date is
absent or differs from today, and a completed run shows the sleep prompts
and stores both sleep fields exactly when it holds; on a follow-up run both
fields are absent. -/
theorem C5_first_entry_gates_sleep (info : CsvInfo) (today : Int) (now : String) (inp : Inputs)
    (entry : LogEntry) (log : PromptLog) :
    (is_first_entry_today info today = true ↔
      (info.last_entry_date = none ∨ info.last_entry_date ≠ some today)) ∧
    (collect info today now inp = some (Except.ok (entry, log)) →
      log.sleep_prompts = is_first_entry_today info today ∧
      (is_first_entry_today info today = true →
        entry.sleep_hours.isSome = true ∧ entry.sleep_quality.isSome = true) ∧
      (is_first_entry_today info today = false →
        entry.sleep_hours = none ∧ entry.sleep_quality = none)) := by
  constructor
  · unfold is_first_entry_today
    cases hl : info.last_entry_date with
    | none => simp
    | some d => simp
  · intro h
    rcases collect_ok h with ⟨sleep, r1, r2, r3, r4, r5, r6, w, rem, hsleep, hw, hrem, hentry, hlog⟩
    refine ⟨by rw [hlog], ?_, ?_⟩
    · intro hf
      rcases collect_sleep_ok_first hf hsleep with ⟨a, b, hs⟩
      rw [hentry, hs]
      exact ⟨rfl, rfl⟩
    · intro hf
      have hs := collect_sleep_ok_followup hf hsleep
      rw [hentry, hs]
      exact ⟨rfl, rfl⟩

/-- C5, witness: a history whose only row is dated today makes
`is_first_entry_today` false, and the completed follow-up run leaves both
sleep fields absent. -/
theorem C5_witness :
    (⟨false, true⟩ : PromptLog).sleep_prompts
      = is_first_entry_today ⟨some 20738, some 20738, false⟩ 20738 ∧
    (is_first_entry_today ⟨some 20738, some 20738, false⟩ 20738 = true →
      (⟨"ts", 1, none, none, 5, 5, 5, 5, 5, 5, false, ""⟩ : LogEntry).sleep_hours.isSome = true ∧
      (⟨"ts", 1, none, none, 5, 5, 5, 5, 5, 5, false, ""⟩ : LogEntry).sleep_quality.isSome = true) ∧
    (is_first_entry_today ⟨some 20738, some 20738, false⟩ 20738 = false →
      (⟨"ts", 1, none, none, 5, 5, 5, 5, 5, 5, false, ""⟩ : LogEntry).sleep_hours = none ∧
      (⟨"ts", 1, none, none, 5, 5, 5, 5, 5, 5, false, ""⟩ : LogEntry).sleep_quality = none) :=
  (C5_first_entry_gates_sleep ⟨some 20738, some 20738, false⟩ 20738 "ts"
      ⟨[], [], [Ev.text "5"], [Ev.text "5"], [Ev.text "5"], [Ev.text "5"], [Ev.text "5"],
       [Ev.text "5"], [CEv.answer false], [Ev.text ""]⟩
      ⟨"ts", 1, none, none, 5, 5, 5, 5, 5, 5, false, ""⟩ ⟨false, true⟩).2 (by decide)

/-- C7: an interactive prompt fails only by user cancellation, reported as
the distinct `AppError::DialogCancelled`; and every failing run returns
that error with the data file untouched — no write happens on
cancellation. -/
theorem C7_cancel_distinct_no_write :
    (∀ (validator : String → Bool) (dflt : Option String) (evs : List Ev) (e : RunError),
      interact_text validator dflt evs = some (Except.error e) →
      e = RunError.app AppError.DialogCancelled) ∧
    (∀ (evs : List CEv) (e : RunError),
      interact_confirm evs = some (Except.error e) →
      e = RunError.app AppError.DialogCancelled) ∧
    (∀ (file : Option (List RecordResult)) (today : Int) (now : String) (inp : Inputs)
      (e : RunError) (fs : Option (List RecordResult)),
      run file today now inp = some (Except.error e, fs) →
      e = RunError.app AppError.DialogCancelled ∧ fs = file) := by
  refine ⟨interact_text_err, interact_confirm_err, ?_⟩
  intro file today now inp e fs h
  replace h : (match collect (read_csv_info file today) today now inp with
      | none => none
      | some (Except.error e2) => some (Except.error e2, file)
      | some (Except.ok p) => some (Except.ok (), some (append_to_csv file p.1)))
      = some (Except.error e, fs) := h
  cases hc : collect (read_csv_info file today) today now inp with
  | none => rw [hc] at h; simp at h
  | some r =>
    cases r with
    | error e2 =>
      rw [hc] at h
      simp only [Option.some.injEq, Prod.mk.injEq, Except.error.injEq] at h
      exact ⟨h.1 ▸ collect_err hc, h.2.symm⟩
    | ok p =>
      rw [hc] at h
      simp at h

/-- C7, witness: cancelling the very first prompt of a first-of-day run on
a missing file fails with `DialogCancelled` and leaves the file absent. -/
theorem C7_witness :
    run none 20738 "ts" ⟨[Ev.cancel], [], [], [], [], [], [], [], [], []⟩
      = some (Except.error (RunError.app AppError.DialogCancelled), none) ∧
    (RunError.app AppError.DialogCancelled = RunError.app AppError.DialogCancelled ∧
      (none : Option (List RecordResult)) = none) :=
  ⟨by decide,
   C7_cancel_distinct_no_write.2.2 none 20738 "ts"
     ⟨[Ev.cancel], [], [], [], [], [], [], [], [], []⟩
     (RunError.app AppError.DialogCancelled) none (by decide)⟩

/-- C9: on any history, `first_entry_date` is the minimum successfully
parsed date, `last_entry_date` is the date of the last successfully parsed
record in file order, both are present exactly when some record parses,
and the first date never exceeds the last. -/
theorem C9_first_last (records : List RecordResult) (today : Int) :
    (read_csv_info (some records) today).first_entry_date
      = (records.filterMap rowDate).min? ∧
    (read_csv_info (some records) today).last_entry_date
      = (records.filterMap rowDate).getLast? ∧
    (records.filterMap rowDate = [] →
      (read_csv_info (some records) today).first_entry_date = none ∧
      (read_csv_info (some records) today).last_entry_date = none) ∧
    (records.filterMap rowDate ≠ [] →
      (read_csv_info (some records) today).first_entry_date.isSome = true ∧
      (read_csv_info (some records) today).last_entry_date.isSome = true) ∧
    (∀ f l, (read_csv_info (some records) today).first_entry_date = some f →
      (read_csv_info (some records) today).last_entry_date = some l → f ≤ l) := by
  refine ⟨read_csv_info_first today records, read_csv_info_last today records, ?_, ?_, ?_⟩
  · intro hds
    rw [read_csv_info_first, read_csv_info_last, hds]
    exact ⟨rfl, rfl⟩
  · intro hds
    rw [read_csv_info_first, read_csv_info_last]
    cases hcase : records.filterMap rowDate with
    | nil => exact absurd hcase hds
    | cons d t =>
      rw [min?_eq_foldl_min]
      refine ⟨rfl, ?_⟩
      cases hl : (d :: t).getLast? with
      | none => exact absurd (List.getLast?_eq_none_iff.mp hl) (by simp)
      | some x => rfl
  · intro f l hf hl
    rw [read_csv_info_first] at hf
    rw [read_csv_info_last] at hl
    have hmem : l ∈ records.filterMap rowDate := by
      rcases List.mem_getLast?_eq_getLast (l := records.filterMap rowDate) (x := l) hl
        with ⟨hne, hx⟩
      rw [hx]
      exact List.getLast_mem hne
    exact min?_le hf hmem

/-- C9, witness: a two-row history dated yesterday and today has
`first = yesterday ≤ last = today`. -/
theorem C9_witness :
    (read_csv_info (some
        [RecordResult.ok
          ["2026-10-11T08:00:00+00:00", "1", "7", "8", "3", "3", "5", "5", "5", "5", "true", ""],
         RecordResult.ok
          ["2026-10-12T08:00:00+00:00", "2", "", "", "3", "3", "5", "5", "5", "5", "false", ""]])
        20738).first_entry_date = some 20737 ∧
    (read_csv_info (some
        [RecordResult.ok
          ["2026-10-11T08:00:00+00:00", "1", "7", "8", "3", "3", "5", "5", "5", "5", "true", ""],
         RecordResult.ok
          ["2026-10-12T08:00:00+00:00", "2", "", "", "3", "3", "5", "5", "5", "5", "false", ""]])
        20738).last_entry_date = some 20738 ∧
    (20737 : Int) ≤ 20738 :=
  ⟨by decide, by decide,
   (C9_first_last
      [RecordResult.ok
        ["2026-10-11T08:00:00+00:00", "1", "7", "8", "3", "3", "5", "5", "5", "5", "true", ""],
       RecordResult.ok
        ["2026-10-12T08:00:00+00:00", "2", "", "", "3", "3", "5", "5", "5", "5", "false", ""]]
      20738).2.2.2.2 20737 20738 (by decide) (by decide)⟩
